import Mathlib

/-
Verification development for the zod-hook-form-generator repository.

The repository renders a React Native form from a zod object schema:
`ZodForm` walks the schema's shape, compiles a `FieldConfig` per field
(kind, requiredness, option list, `showConditions` visibility rule read
from zod `.meta()`), and re-evaluates visibility (`isFieldVisible`) and
the whole-schema refinements (`checkPasswordMatch`,
`checkPhoneNumberLength`, backed by `PasswordValidator` /
`PhoneValidator` in validators.ts) on every value change.  The
`IntlProvider` supplies `formatMessage`, which resolves a message key for
the active locale and substitutes brace-delimited placeholders.

This file shallowly embeds those functions.  JavaScript runtime values
that flow through the visibility evaluator and the intl placeholder
substitution are modelled by the inductive `JSValue` (strings, integer
numbers, booleans, null, undefined); strict equality `===` on that subset
is structural equality, JS truthiness is `jsTruthy`, and JS `ToString`
on that subset is `toStr`.  A form value map (`form.watch()` result) is
a total function `String → JSValue`, with `JSValue.undef` standing for a
missing key.
-/

/-- Model of the JavaScript runtime values manipulated by the form:
strings, (integer) numbers, booleans, `null` and `undefined`. -/
inductive JSValue where
  | str (s : String)
  | num (n : Int)
  | bool (b : Bool)
  | null
  | undef
deriving DecidableEq, Repr

/-- JavaScript truthiness on the modelled value subset: empty string,
zero, `false`, `null` and `undefined` are falsy, everything else truthy. -/
def jsTruthy : JSValue → Bool
  | .str s => !s.isEmpty
  | .num n => decide (n ≠ 0)
  | .bool b => b
  | .null => false
  | .undef => false

/-- JavaScript `ToString` on the modelled value subset (as applied by
`String.prototype.includes` to its argument and by `String.prototype.replace`
to the replacement). -/
def toStr : JSValue → String
  | .str s => s
  | .num n => toString n
  | .bool b => if b then "true" else "false"
  | .null => "null"
  | .undef => "undefined"

/-- `startsWith hay needle` holds when `needle` is a prefix of `hay`
(character-list level helper for the substring test). -/
def startsWith : List Char → List Char → Bool
  | _, [] => true
  | [], _ :: _ => false
  | h :: hs, n :: ns => h = n && startsWith hs ns

/-- `containsSub hay needle` models JavaScript `hay.includes(needle)`:
`needle` occurs contiguously somewhere inside `hay`. -/
def containsSub : List Char → List Char → Bool
  | [], needle => needle.isEmpty
  | h :: hs, needle => startsWith (h :: hs) needle || containsSub hs needle

theorem startsWith_iff (hay needle : List Char) :
    startsWith hay needle = true ↔ ∃ r, hay = needle ++ r := by
  induction needle generalizing hay with
  | nil => simp [startsWith]
  | cons n ns ih =>
    cases hay with
    | nil => simp [startsWith]
    | cons h hs =>
      simp only [startsWith, Bool.and_eq_true, decide_eq_true_eq, ih]
      constructor
      · rintro ⟨rfl, r, rfl⟩; exact ⟨r, rfl⟩
      · rintro ⟨r, hr⟩
        cases hr
        exact ⟨rfl, r, rfl⟩

theorem containsSub_iff (hay needle : List Char) :
    containsSub hay needle = true ↔ ∃ pre suf, hay = pre ++ needle ++ suf := by
  induction hay with
  | nil =>
    simp only [containsSub, List.isEmpty_iff]
    constructor
    · rintro rfl; exact ⟨[], [], rfl⟩
    · rintro ⟨pre, suf, h⟩
      rcases List.append_eq_nil.mp (List.append_eq_nil.mp h.symm).1 with ⟨_, h2⟩
      exact h2
  | cons h hs ih =>
    simp only [containsSub, Bool.or_eq_true, startsWith_iff, ih]
    constructor
    · rintro (⟨r, hr⟩ | ⟨pre, suf, hp⟩)
      · exact ⟨[], r, by simp [hr]⟩
      · exact ⟨h :: pre, suf, by simp [hp]⟩
    · rintro ⟨pre, suf, hp⟩
      cases pre with
      | nil => exact Or.inl ⟨suf, by simpa using hp⟩
      | cons p ps =>
        rw [List.cons_append, List.cons_append, List.cons.injEq] at hp
        exact Or.inr ⟨ps, suf, hp.2⟩

/-- One visibility condition as written in a field's
`meta({ showConditions: [...] })`:
`{ field: string, operator: string, value?: any }` (a missing `value` is
`JSValue.undef`). -/
structure Condition where
  field : String
  operator : String
  value : JSValue
deriving DecidableEq, Repr

/-- The operator strings recognized by the `switch` inside `isFieldVisible`
(they are also the literal cases of the `operator` union type declared on
`FieldConfig.showConditions`): `equals`, `notEquals`, `contains`,
`notContains`, `true`, `false`.  Any other operator string falls to the
`default` branch. -/
def recognizedOps : List String :=
  ["equals", "notEquals", "contains", "notContains", "true", "false"]

/-- Evaluation of a single condition inside `isFieldVisible` (ZodForm.tsx,
both variants): reads `watchedValues[condition.field]` and dispatches on
`condition.operator`; `equals`/`notEquals` use strict equality,
`contains`/`notContains` require the field value to be a string and test
substring containment, `true`/`false` compare against the respective
boolean, and the `default` branch returns `true` (fail-open). -/
def evalCondition (values : String → JSValue) (condition : Condition) : Bool :=
  let fieldValue := values condition.field
  if condition.operator = "equals" then decide (fieldValue = condition.value)
  else if condition.operator = "notEquals" then decide (fieldValue ≠ condition.value)
  else if condition.operator = "contains" then
    match fieldValue with
    | .str s => containsSub s.data (toStr condition.value).data
    | _ => false
  else if condition.operator = "notContains" then
    match fieldValue with
    | .str s => !containsSub s.data (toStr condition.value).data
    | _ => false
  else if condition.operator = "true" then decide (fieldValue = JSValue.bool true)
  else if condition.operator = "false" then decide (fieldValue = JSValue.bool false)
  else true

/-- `isFieldVisible` (ZodForm.tsx): a field with no / empty
`showConditions` is visible; otherwise `showConditions.every(...)` over
`evalCondition`. -/
def isFieldVisible (showConditions : List Condition) (values : String → JSValue) : Bool :=
  if showConditions.isEmpty then true
  else showConditions.all (fun condition => evalCondition values condition)

/-- Claim C1 (counterexample): a condition written with operator
`isTrue` is not recognized by the evaluator's cases; on a value map where
the referenced field is the boolean `false`, the field is nevertheless
reported visible (the `default` fail-open branch fires), contradicting
"returns true exactly when the referenced field's current value is the
boolean true"; and `isTrue`, `isFalse` are not members of the recognized
operator set. -/
theorem isTrue_operator_fail_open_cex :
    isFieldVisible [⟨"flag", "isTrue", JSValue.undef⟩]
      (fun _ => JSValue.bool false) = true ∧
    (fun _ => JSValue.bool false : String → JSValue) "flag" ≠ JSValue.bool true ∧
    "isTrue" ∉ recognizedOps ∧ "isFalse" ∉ recognizedOps := by
  refine ⟨rfl, by decide, by decide, by decide⟩

/-- Claim C1 (amended): the boolean operators recognized by the
visibility evaluator are spelled `true` and `false`; for operator `true`
a condition is satisfied exactly when the referenced field's current
value is the boolean `true`, for operator `false` exactly when it is the
boolean `false`; the spellings `isTrue` and `isFalse` are not in the
recognized operator set and any condition using them falls to the
fail-open default, i.e. is always satisfied. -/
theorem evalCondition_true_false_operators :
    (∀ (values : String → JSValue) (f : String) (v : JSValue),
      evalCondition values ⟨f, "true", v⟩ = true ↔ values f = JSValue.bool true) ∧
    (∀ (values : String → JSValue) (f : String) (v : JSValue),
      evalCondition values ⟨f, "false", v⟩ = true ↔ values f = JSValue.bool false) ∧
    (∀ (values : String → JSValue) (f : String) (v : JSValue),
      evalCondition values ⟨f, "isTrue", v⟩ = true) ∧
    (∀ (values : String → JSValue) (f : String) (v : JSValue),
      evalCondition values ⟨f, "isFalse", v⟩ = true) ∧
    "true" ∈ recognizedOps ∧ "false" ∈ recognizedOps ∧
    "isTrue" ∉ recognizedOps ∧ "isFalse" ∉ recognizedOps := by
  refine ⟨?_, ?_, ?_, ?_, by decide, by decide, by decide, by decide⟩
  · intro values f v
    simp [evalCondition]
  · intro values f v
    simp [evalCondition]
  · intro values f v
    rfl
  · intro values f v
    rfl

/-- Claim C5: a field whose visibility rule is the empty list is visible;
a non-empty rule is a logical AND over its conditions; `equals` holds iff
the referenced value is strictly equal to the condition value,
`notEquals` iff not strictly equal, and `contains`/`notContains` hold
only when the referenced value is a string, containing (respectively not
containing) the condition value as a substring. -/
theorem isFieldVisible_operator_semantics :
    (∀ values : String → JSValue, isFieldVisible [] values = true) ∧
    (∀ (conds : List Condition) (values : String → JSValue),
      isFieldVisible conds values = true ↔
        ∀ c ∈ conds, evalCondition values c = true) ∧
    (∀ (values : String → JSValue) (f : String) (v : JSValue),
      evalCondition values ⟨f, "equals", v⟩ = true ↔ values f = v) ∧
    (∀ (values : String → JSValue) (f : String) (v : JSValue),
      evalCondition values ⟨f, "notEquals", v⟩ = true ↔ values f ≠ v) ∧
    (∀ (values : String → JSValue) (f : String) (v : JSValue),
      evalCondition values ⟨f, "contains", v⟩ = true ↔
        ∃ s pre suf, values f = JSValue.str s ∧
          s.data = pre ++ (toStr v).data ++ suf) ∧
    (∀ (values : String → JSValue) (f : String) (v : JSValue),
      evalCondition values ⟨f, "notContains", v⟩ = true ↔
        ∃ s, values f = JSValue.str s ∧
          ¬ ∃ pre suf, s.data = pre ++ (toStr v).data ++ suf) := by
  refine ⟨fun values => rfl, ?_, ?_, ?_, ?_, ?_⟩
  · intro conds values
    cases conds with
    | nil => simp [isFieldVisible]
    | cons c cs => simp [isFieldVisible, List.all_eq_true]
  · intro values f v
    simp [evalCondition]
  · intro values f v
    simp [evalCondition]
  · intro values f v
    show (match values f with
      | .str s => containsSub s.data (toStr v).data
      | _ => false) = true ↔ _
    cases hv : values f with
    | str s => simp [containsSub_iff]
    | num n => simp
    | bool b => simp
    | null => simp
    | undef => simp
  · intro values f v
    show (match values f with
      | .str s => !containsSub s.data (toStr v).data
      | _ => false) = true ↔ _
    cases hv : values f with
    | str s =>
      constructor
      · intro hb
        refine ⟨s, rfl, fun hex => ?_⟩
        have hc : containsSub s.data (toStr v).data = true :=
          (containsSub_iff _ _).mpr hex
        simp [hc] at hb
      · rintro ⟨s2, hs2, hnot⟩
        injection hs2 with he
        subst he
        have hc : containsSub s.data (toStr v).data = false := by
          cases hcc : containsSub s.data (toStr v).data
          · rfl
          · exact absurd ((containsSub_iff _ _).mp hcc) hnot
        simp [hc]
    | num n => simp
    | bool b => simp
    | null => simp
    | undef => simp

/-- Every condition whose operator is not one of the six recognized
cases is satisfied by the evaluator's `default` branch, for any value
map. -/
theorem evalCondition_default_of_unrecognized
    (values : String → JSValue) (c : Condition)
    (h : c.operator ∉ recognizedOps) : evalCondition values c = true := by
  simp only [recognizedOps, List.mem_cons, List.not_mem_nil, or_false, not_or] at h
  obtain ⟨h1, h2, h3, h4, h5, h6⟩ := h
  simp [evalCondition, h1, h2, h3, h4, h5, h6]

/-- Claim C6: conditions whose operator string is not one of the
recognized cases are treated as satisfied (fail-open), so a rule made
only of unrecognized operators yields a visible field for every value
map. -/
theorem isFieldVisible_unrecognized_fail_open
    (conds : List Condition) (values : String → JSValue)
    (h : ∀ c ∈ conds, c.operator ∉ recognizedOps) :
    isFieldVisible conds values = true := by
  cases conds with
  | nil => rfl
  | cons c cs =>
    simp only [isFieldVisible, List.isEmpty_cons, if_neg Bool.false_ne_true,
      List.all_eq_true]
    intro x hx
    exact evalCondition_default_of_unrecognized values x (h x hx)

/-- Witness for claim C6: a concrete two-condition rule using only the
unrecognized operators `isTrue` and `>=` (the second one appears in the
repository's README example) leaves the field visible. -/
theorem isFieldVisible_unrecognized_fail_open_witness :
    isFieldVisible [⟨"notifications", "isTrue", JSValue.undef⟩,
        ⟨"age", ">=", JSValue.num 18⟩]
      (fun _ => JSValue.undef) = true :=
  isFieldVisible_unrecognized_fail_open _ _ (by decide)

/-- Claim C9: visibility evaluation is a pure function of the rule and
the current value map: two deeply equal (pointwise equal) value maps give
the same visibility verdict for every rule. -/
theorem isFieldVisible_pure
    (conds : List Condition) (v1 v2 : String → JSValue)
    (h : ∀ k, v1 k = v2 k) :
    isFieldVisible conds v1 = isFieldVisible conds v2 := by
  have hv : v1 = v2 := funext h
  rw [hv]

/-- Witness for claim C9: two syntactically different but pointwise equal
value maps (the same two bindings tested in opposite order) yield the
same verdict on a concrete `equals` rule. -/
theorem isFieldVisible_pure_witness :
    isFieldVisible [⟨"country", "equals", JSValue.str "us"⟩]
      (fun k => if k = "country" then JSValue.str "us"
        else if k = "age" then JSValue.num 18 else JSValue.undef) =
    isFieldVisible [⟨"country", "equals", JSValue.str "us"⟩]
      (fun k => if k = "age" then JSValue.num 18
        else if k = "country" then JSValue.str "us" else JSValue.undef) := by
  refine isFieldVisible_pure _ _ _ (fun k => ?_)
  by_cases h1 : k = "country"
  · subst h1; simp
  · by_cases h2 : k = "age" <;> simp [h1, h2]

/-- The structured metadata bag a zod node may carry via `.meta({...})`;
`showConditions` is `some` exactly when the bag holds an array under that
key (the code checks `Array.isArray(meta.showConditions)`). -/
structure Meta where
  showConditions : Option (List Condition)
deriving DecidableEq, Repr

/-- The zod type nodes the compiler inspects: `z.string()`, `z.number()`,
`z.boolean()`, `z.enum([...])` and the `.optional()` wrapper, each
carrying its own optional metadata bag (`none` also models a node whose
`.meta()` accessor throws or yields nothing). -/
inductive ZodType where
  | zstring (meta : Option Meta)
  | znumber (meta : Option Meta)
  | zboolean (meta : Option Meta)
  | zenum (options : List String) (meta : Option Meta)
  | zoptional (inner : ZodType) (meta : Option Meta)
deriving DecidableEq, Repr

/-- The metadata registered directly on a node (`fieldSchema.meta()`). -/
def metaOf : ZodType → Option Meta
  | .zstring m => m
  | .znumber m => m
  | .zboolean m => m
  | .zenum _ m => m
  | .zoptional _ m => m

/-- Metadata retrieval as performed by both ZodForm variants: try
`fieldSchema.meta()` inside a try/catch; if that yields nothing and the
node is a `ZodOptional`, try `fieldSchema._def.innerType.meta()` inside a
second try/catch.  A throwing or absent accessor is `none`. -/
def getFieldMeta (fieldSchema : ZodType) : Option Meta :=
  match metaOf fieldSchema with
  | some m => some m
  | none =>
    match fieldSchema with
    | .zoptional inner _ => metaOf inner
    | _ => none

/-- `getShowConditions` (ZodForm.tsx, first variant): reads the metadata
as above and returns `meta?.showConditions || []` — the empty rule when
the metadata or the key is missing. -/
def getShowConditions (fieldSchema : ZodType) : List Condition :=
  match getFieldMeta fieldSchema with
  | some m => m.showConditions.getD []
  | none => []

/-- The compiled per-field descriptor (`FieldConfig` in ZodForm.tsx,
second variant), restricted to the structural fields the visibility and
requiredness logic reads; the presentation-only members (label,
placeholder, description, option labels, isPassword) are localization
strings that do not feed any claim. -/
structure FieldConfig where
  name : String
  type : String
  isRequired : Bool
  showConditions : Option (List Condition)
deriving DecidableEq, Repr

/-- Compilation of one schema entry inside `fieldConfigs` (ZodForm.tsx,
second variant): the config starts as
`{ type: 'string', isRequired: false, isVisible: true }`; the branch for
each concrete node kind sets `type` and `isRequired` (`!isOptional()` is
`true` on a bare `ZodString`/`ZodNumber`/`ZodEnum` node, `ZodBoolean`
sets `isRequired = false`, every `ZodOptional` branch sets
`isRequired = false`, and a node matching no branch — e.g. a nested
optional — leaves the defaults); then `showConditions` is copied from the
metadata when it is an array. -/
def fieldConfig (fieldName : String) (fieldSchema : ZodType) : FieldConfig :=
  let base : FieldConfig :=
    { name := fieldName, type := "string", isRequired := false, showConditions := none }
  let cfg : FieldConfig :=
    match fieldSchema with
    | .zstring _ => { base with type := "string", isRequired := true }
    | .znumber _ => { base with type := "number", isRequired := true }
    | .zboolean _ => { base with type := "boolean", isRequired := false }
    | .zenum _ _ => { base with type := "enum", isRequired := true }
    | .zoptional inner _ =>
      match inner with
      | .zstring _ => { base with type := "string", isRequired := false }
      | .znumber _ => { base with type := "number", isRequired := false }
      | .zboolean _ => { base with type := "boolean", isRequired := false }
      | .zenum _ _ => { base with type := "enum", isRequired := false }
      | .zoptional _ _ => base
  match getFieldMeta fieldSchema with
  | some m =>
    match m.showConditions with
    | some arr => { cfg with showConditions := some arr }
    | none => cfg
  | none => cfg

/-- `fieldConfigs`: the compiled descriptor list, one config per entry of
the object schema's shape, in declaration order. -/
def fieldConfigs (shape : List (String × ZodType)) : List FieldConfig :=
  shape.map (fun entry => fieldConfig entry.1 entry.2)

/-- `isFieldVisible` (ZodForm.tsx, second variant), which takes the
compiled config: `!config.showConditions || length === 0` is visible,
otherwise the same `every` loop over `evalCondition`. -/
def isFieldVisibleConfig (values : String → JSValue) (config : FieldConfig) : Bool :=
  match config.showConditions with
  | none => true
  | some conds =>
    if conds.isEmpty then true
    else conds.all (fun condition => evalCondition values condition)

/-- The shape of the application's form schema (`createFormSchema` in
App.tsx), with each field's `showConditions` metadata; per-field value
checks such as `.min(2)` or `.email()` do not affect the compiled
structure and are modelled separately where a claim needs them. -/
def formSchemaFields : List (String × ZodType) :=
  [("name", .zstring none),
   ("email", .zstring none),
   ("country", .zenum ["us", "ca", "uk", "fr", "de"] none),
   ("gender", .zenum ["male", "female", "other", "prefer-not-to-say"] none),
   ("notifications", .zboolean none),
   ("password", .zstring none),
   ("repeatPassword", .zstring none),
   ("newsletter", .zoptional
      (.zboolean (some ⟨some [⟨"notifications", "equals", JSValue.bool true⟩]⟩)) none),
   ("phoneNumber", .zoptional
      (.zstring (some ⟨some [⟨"country", "equals", JSValue.str "us"⟩]⟩)) none),
   ("address", .zoptional
      (.zstring (some ⟨some [⟨"country", "notEquals", JSValue.str "us"⟩]⟩)) none),
   ("terms", .zboolean none)]

/-- Claim C4 (counterexample): the application's `notifications` field is
a bare, non-optional `z.boolean()`, yet its compiled config has
`isRequired = false` — the `ZodBoolean` branch of `fieldConfigs`
hard-codes `isRequired = false` instead of `!fieldSchema.isOptional()`,
so a non-optional boolean field is not marked required. -/
theorem boolean_field_not_required_cex :
    (fieldConfig "notifications" (ZodType.zboolean none)).isRequired = false ∧
    ("notifications", ZodType.zboolean none) ∈ formSchemaFields ∧
    fieldConfig "notifications" (ZodType.zboolean none) ∈ fieldConfigs formSchemaFields := by
  refine ⟨rfl, by decide, by decide⟩

/-- Claim C4 (amended): in the compiled descriptor list, a non-optional
field of text, number or single-choice kind is marked required, every
field wrapped in the optional modifier is marked not required — and so is
every boolean field, even when it is not optional (the `ZodBoolean`
branch hard-codes `isRequired = false`). -/
theorem fieldConfig_required_spec :
    (∀ (n : String) (m : Option Meta),
      (fieldConfig n (.zstring m)).isRequired = true) ∧
    (∀ (n : String) (m : Option Meta),
      (fieldConfig n (.znumber m)).isRequired = true) ∧
    (∀ (n : String) (opts : List String) (m : Option Meta),
      (fieldConfig n (.zenum opts m)).isRequired = true) ∧
    (∀ (n : String) (m : Option Meta),
      (fieldConfig n (.zboolean m)).isRequired = false) ∧
    (∀ (n : String) (inner : ZodType) (m : Option Meta),
      (fieldConfig n (.zoptional inner m)).isRequired = false) := by
  refine ⟨?_, ?_, ?_, ?_, ?_⟩
  · intro n m
    cases m with
    | none => rfl
    | some mm => cases mm with | mk sc => cases sc <;> rfl
  · intro n m
    cases m with
    | none => rfl
    | some mm => cases mm with | mk sc => cases sc <;> rfl
  · intro n opts m
    cases m with
    | none => rfl
    | some mm => cases mm with | mk sc => cases sc <;> rfl
  · intro n m
    cases m with
    | none => rfl
    | some mm => cases mm with | mk sc => cases sc <;> rfl
  · intro n inner m
    cases m with
    | none =>
      cases inner <;>
        simp only [fieldConfig, getFieldMeta, metaOf] <;>
        (first
          | rfl
          | (rename_i im; cases im with
             | none => rfl
             | some mm => cases mm with | mk sc => cases sc <;> rfl))
    | some mm =>
      cases mm with
      | mk sc => cases inner <;> cases sc <;> rfl

/-- Claim C7: metadata extraction is modelled totally (the two JavaScript
try/catch blocks around `.meta()` become the `Option` in `getFieldMeta`,
so no retrieval can raise); whenever metadata is absent or not
retrievable on both the field's node and — for optional fields — the
wrapped inner node, the compiled condition list is empty, the compiled
config carries no conditions, and the field is visible under every value
map, through both evaluator variants. -/
theorem getShowConditions_fail_open
    (fieldSchema : ZodType) (fieldName : String) (values : String → JSValue)
    (h : getFieldMeta fieldSchema = none) :
    getShowConditions fieldSchema = [] ∧
    (fieldConfig fieldName fieldSchema).showConditions = none ∧
    isFieldVisible (getShowConditions fieldSchema) values = true ∧
    isFieldVisibleConfig values (fieldConfig fieldName fieldSchema) = true := by
  have h1 : getShowConditions fieldSchema = [] := by
    simp [getShowConditions, h]
  have h2 : (fieldConfig fieldName fieldSchema).showConditions = none := by
    unfold fieldConfig
    rw [h]
    cases fieldSchema with
    | zoptional inner m => cases inner <;> rfl
    | zstring m => rfl
    | znumber m => rfl
    | zboolean m => rfl
    | zenum opts m => rfl
  refine ⟨h1, h2, ?_, ?_⟩
  · rw [h1]; rfl
  · simp [isFieldVisibleConfig, h2]

/-- Witness for claim C7: a bare `z.string()` with no metadata (the
application's `name` field) has the empty condition list and is visible. -/
theorem getShowConditions_fail_open_witness :
    getShowConditions (ZodType.zstring none) = [] ∧
    (fieldConfig "name" (ZodType.zstring none)).showConditions = none ∧
    isFieldVisible (getShowConditions (ZodType.zstring none))
      (fun _ => JSValue.undef) = true ∧
    isFieldVisibleConfig (fun _ => JSValue.undef)
      (fieldConfig "name" (ZodType.zstring none)) = true :=
  getShowConditions_fail_open (ZodType.zstring none) "name"
    (fun _ => JSValue.undef) rfl

/-- `PasswordValidator.checkPassword.validation` (validators.ts):
`if (password && password.length >= 6) return true; return false;` —
the argument is `password?: string`, so `none` models `undefined` and the
truthiness test rejects the empty string. -/
def PasswordValidator.checkPassword.validation (password : Option String) : Bool :=
  match password with
  | some p => if p ≠ "" ∧ 6 ≤ p.length then true else false
  | none => false

/-- `PhoneValidator.checkPhoneNumber.validation` (validators.ts):
`if (phoneNumber && phoneNumber.length === 10) return true; return false;`. -/
def PhoneValidator.checkPhoneNumber.validation (phoneNumber : Option String) : Bool :=
  match phoneNumber with
  | some p => if p ≠ "" ∧ p.length = 10 then true else false
  | none => false

/-- A parsed value of the application's form schema (`createFormSchema`
in App.tsx): the `.optional()` fields may be `undefined`. -/
structure FormData where
  name : String
  email : String
  country : String
  gender : String
  notifications : Bool
  password : String
  repeatPassword : String
  newsletter : Option Bool
  phoneNumber : Option String
  address : Option String
  terms : Bool
deriving DecidableEq, Repr

/-- The whole-schema refinement `checkPasswordMatch` (App.tsx):
`return PasswordValidator.checkPassword.validation(data.password);` —
it reads only `data.password`. -/
def checkPasswordMatch (data : FormData) : Bool :=
  PasswordValidator.checkPassword.validation (some data.password)

/-- The declared error target and message key of the
`checkPasswordMatch` refinement:
`{ message: PasswordValidator.checkPassword.errMessage(t), path: ["repeatPassword"] }`,
where `errMessage` resolves the key `error.password.length`. -/
structure RefinementTarget where
  path : List String
  messageId : String
deriving DecidableEq, Repr

/-- Error target of `checkPasswordMatch`. -/
def passwordRefinement : RefinementTarget :=
  { path := ["repeatPassword"], messageId := "error.password.length" }

/-- Error target of `checkPhoneNumberLength`
(`{ message: PhoneValidator.checkPhoneNumber.errMessage(t), path: ["phoneNumber"] }`,
key `error.phoneNumber.length`). -/
def phoneRefinement : RefinementTarget :=
  { path := ["phoneNumber"], messageId := "error.phoneNumber.length" }

/-- The whole-schema refinement `checkPhoneNumberLength` (App.tsx) with
its side effect made explicit: when `data.country !== 'us'` it returns
`true` immediately; otherwise it first issues `form?.trigger('phoneNumber')`
(recorded in the second component, and only when a form instance is
attached) and returns the phone validator's verdict. -/
def checkPhoneNumberLength (formAttached : Bool) (data : FormData) :
    Bool × List String :=
  if data.country ≠ "us" then (true, [])
  else (PhoneValidator.checkPhoneNumber.validation data.phoneNumber,
        if formAttached then ["phoneNumber"] else [])

/-- The `.min(6, ...)` check the schema declares on both `password` and
`repeatPassword` (`z.string().min(6, t({ id: 'error.password.min' }))`). -/
def stringMinCheck (minLen : Nat) (value : String) : Bool :=
  decide (minLen ≤ value.length)

/-- Claim C2: `checkPasswordMatch` returns true iff the primary
`password` value passes the minimum-length predicate (length at least 6,
the truthiness guard being subsumed since such a string is non-empty),
its error target is the confirmation field (`path: ["repeatPassword"]`),
and its verdict is independent of the `repeatPassword` value. -/
theorem checkPasswordMatch_spec (data : FormData) (r : String) :
    (checkPasswordMatch data = true ↔ 6 ≤ data.password.length) ∧
    passwordRefinement.path = ["repeatPassword"] ∧
    checkPasswordMatch { data with repeatPassword := r } = checkPasswordMatch data := by
  refine ⟨?_, rfl, rfl⟩
  simp only [checkPasswordMatch, PasswordValidator.checkPassword.validation]
  constructor
  · intro h
    by_cases hc : data.password ≠ "" ∧ 6 ≤ data.password.length
    · exact hc.2
    · simp [if_neg hc] at h
  · intro h
    have hne : data.password ≠ "" := by
      intro he
      rw [he] at h
      simp [String.length] at h
    simp [hne, h]

/-- The scenario input of claim C3: the application's default values with
`password = "123456"` and `repeatPassword = "1234"`. -/
def mismatchData : FormData :=
  { name := "Robin Lebhar", email := "robin@lebhar.com", country := "fr",
    gender := "male", notifications := false, password := "123456",
    repeatPassword := "1234", newsletter := none, phoneNumber := some "",
    address := some "123 Main St, Anytown, USA", terms := false }

/-- Claim C3 (code evaluation at the failing input): with
`password = "123456"` and `repeatPassword = "1234"` the cross-field check
`checkPasswordMatch` returns `true` — it passes, although the two
passwords differ — because it only tests `password` against the
minimum-length predicate and never compares the fields.  The error that
does appear on `repeatPassword` comes from that field's own
`.min(6, ...)` check, which fails on `"1234"` while passing on
`"123456"` (so `password` itself reports no error). -/
theorem checkPasswordMatch_passes_on_mismatch :
    checkPasswordMatch mismatchData = true ∧
    mismatchData.password ≠ mismatchData.repeatPassword ∧
    stringMinCheck 6 mismatchData.repeatPassword = false ∧
    stringMinCheck 6 mismatchData.password = true := by
  refine ⟨rfl, by decide, by decide, by decide⟩

/-- Concrete data with `country = "us"` and a ten-digit phone number
(used to witness claim C8). -/
def usPhoneData : FormData :=
  { mismatchData with country := "us", phoneNumber := some "0123456789" }

/-- Claim C8 (counterexample): evaluating the phone check with
`country = "fr"` — a genuine evaluation, with a form instance attached —
requests no re-validation at all, contradicting "evaluating it also
requests a targeted re-validation of phoneNumber": the early
`if (data.country !== 'us') return true;` exits before
`form?.trigger('phoneNumber')` is reached. -/
theorem phone_check_no_revalidation_cex :
    mismatchData.country ≠ "us" ∧
    checkPhoneNumberLength true mismatchData = (true, []) := by
  refine ⟨by decide, rfl⟩

/-- Claim C8 (amended): the conditional-required phone check is trivially
valid whenever `country` is not `us` (and then requests nothing); when
`country` is `us` it returns true iff `phoneNumber` is a defined string
of length exactly 10, its error message is attached to the `phoneNumber`
field, and the evaluation requests a targeted re-validation of
`phoneNumber` — on the `us` branch only, and only when a form instance is
attached. -/
theorem checkPhoneNumberLength_spec :
    (∀ (fa : Bool) (data : FormData), data.country ≠ "us" →
      checkPhoneNumberLength fa data = (true, [])) ∧
    (∀ (fa : Bool) (data : FormData), data.country = "us" →
      ((checkPhoneNumberLength fa data).1 = true ↔
        ∃ s, data.phoneNumber = some s ∧ s.length = 10)) ∧
    phoneRefinement.path = ["phoneNumber"] ∧
    (∀ data : FormData, data.country = "us" →
      (checkPhoneNumberLength true data).2 = ["phoneNumber"]) ∧
    (∀ data : FormData, data.country = "us" →
      (checkPhoneNumberLength false data).2 = []) := by
  refine ⟨?_, ?_, rfl, ?_, ?_⟩
  · intro fa data h
    simp [checkPhoneNumberLength, h]
  · intro fa data h
    simp only [checkPhoneNumberLength, h, ne_eq, not_true_eq_false, if_neg,
      not_false_eq_true, ite_false]
    cases hp : data.phoneNumber with
    | none => simp [PhoneValidator.checkPhoneNumber.validation]
    | some p =>
      simp only [PhoneValidator.checkPhoneNumber.validation, Option.some.injEq]
      constructor
      · intro hb
        by_cases hc : p ≠ "" ∧ p.length = 10
        · exact ⟨p, rfl, hc.2⟩
        · simp [if_neg hc] at hb
      · rintro ⟨s, hs, hlen⟩
        cases hs
        have hne : p ≠ "" := by
          intro he
          rw [he] at hlen
          simp [String.length] at hlen
        simp [hne, hlen]
  · intro data h
    simp [checkPhoneNumberLength, h]
  · intro data h
    simp [checkPhoneNumberLength, h]

/-- Witness for claim C8 (amended): with `country = "us"` and the
ten-digit `phoneNumber` the check passes and requests re-validation of
`phoneNumber`; with the default `country = "fr"` data it passes and
requests nothing. -/
theorem checkPhoneNumberLength_spec_witness :
    (checkPhoneNumberLength true usPhoneData).1 = true ∧
    (checkPhoneNumberLength true usPhoneData).2 = ["phoneNumber"] ∧
    checkPhoneNumberLength true mismatchData = (true, []) :=
  ⟨(checkPhoneNumberLength_spec.2.1 true usPhoneData rfl).mpr
      ⟨"0123456789", rfl, rfl⟩,
   checkPhoneNumberLength_spec.2.2.2.1 usPhoneData rfl,
   checkPhoneNumberLength_spec.1 true mismatchData (by decide)⟩

/-- A regex word character as in `\w` (the placeholder pattern is
`\x7b(\w+)\x7d`): ASCII letters, digits and underscore. -/
def isWordChar (c : Char) : Bool := c.isAlphanum || c = '_'

/-- One-pass scanner implementing
`message.replace(/\x7b(\w+)\x7d/g, (match, key) => values[key] || match)`
from `formatMessage` (IntlProvider.tsx).  The first argument is the
scanner mode: `none` outside a brace, `some acc` after an opening brace
with the word characters read so far (in reverse).  A completed
`\x7b word \x7d` group is replaced by the (stringified) variable value
when that value is truthy and kept literally otherwise; any text not part
of a match is copied unchanged. -/
def replGo (vars : String → JSValue) : Option (List Char) → List Char → List Char
  | none, [] => []
  | none, c :: rest =>
    if c = '{' then replGo vars (some []) rest
    else c :: replGo vars none rest
  | some acc, [] => '{' :: acc.reverse
  | some acc, c :: rest =>
    if isWordChar c then replGo vars (some (c :: acc)) rest
    else if c = '}' then
      if acc.isEmpty then '{' :: '}' :: replGo vars none rest
      else
        (if jsTruthy (vars (String.mk acc.reverse))
         then (toStr (vars (String.mk acc.reverse))).data
         else '{' :: acc.reverse ++ ['}']) ++ replGo vars none rest
    else if c = '{' then ('{' :: acc.reverse) ++ replGo vars (some []) rest
    else ('{' :: acc.reverse) ++ (c :: replGo vars none rest)

/-- The global placeholder substitution applied by `formatMessage` when a
`values` record is supplied. -/
def replaceVars (vars : String → JSValue) (l : List Char) : List Char :=
  replGo vars none l

/-- JavaScript `a || b` on an optional string (as in
`descriptor.defaultMessage || descriptor.id`): the fallback is taken when
`a` is `undefined` or the empty string. -/
def jsOrStr (a : Option String) (b : String) : String :=
  match a with
  | some s => if s = "" then b else s
  | none => b

/-- The `(descriptor: \x7b id, defaultMessage? \x7d)` argument of
`formatMessage`. -/
structure MessageDescriptor where
  id : String
  defaultMessage : Option String
deriving DecidableEq, Repr

/-- `formatMessage` (IntlProvider.tsx) for the active locale's message
table: look the id up; a missing (or falsy, i.e. empty) message returns
`descriptor.defaultMessage || descriptor.id` untouched; otherwise, when a
`values` record is present, every `\x7b word \x7d` placeholder is
substituted, and without `values` the message is returned as is. -/
def formatMessage (messages : String → Option String)
    (descriptor : MessageDescriptor) (values : Option (String → JSValue)) : String :=
  match messages descriptor.id with
  | none => jsOrStr descriptor.defaultMessage descriptor.id
  | some message =>
    if message = "" then jsOrStr descriptor.defaultMessage descriptor.id
    else
      match values with
      | some vars => String.mk (replaceVars vars message.data)
      | none => message

theorem replGo_none_append (vars : String → JSValue) (pre l : List Char)
    (hpre : ∀ c ∈ pre, c ≠ '{') :
    replGo vars none (pre ++ l) = pre ++ replGo vars none l := by
  induction pre with
  | nil => rfl
  | cons c cs ih =>
    have hc : c ≠ '{' := hpre c (by simp)
    have ih2 := ih (fun x hx => hpre x (by simp [hx]))
    simp only [List.cons_append, replGo, if_neg hc, List.append_eq]
    rw [ih2]

theorem replGo_some_word (vars : String → JSValue) (suf : List Char) :
    ∀ (name acc : List Char), (∀ c ∈ name, isWordChar c = true) →
    acc.reverse ++ name ≠ [] →
    replGo vars (some acc) (name ++ '}' :: suf) =
      (if jsTruthy (vars (String.mk (acc.reverse ++ name)))
       then (toStr (vars (String.mk (acc.reverse ++ name)))).data
       else '{' :: (acc.reverse ++ name) ++ ['}']) ++ replGo vars none suf := by
  intro name
  induction name with
  | nil =>
    intro acc _ hne
    have hbrace : isWordChar '}' = false := by decide
    have hae : acc.isEmpty = false := by
      cases acc with
      | nil => simp at hne
      | cons a as => rfl
    simp [replGo, hbrace, hae]
  | cons c cs ih =>
    intro acc hword hne
    have hc : isWordChar c = true := hword c (by simp)
    have h2 := ih (c :: acc) (fun x hx => hword x (by simp [hx]))
      (by simp [List.reverse_cons])
    simp only [List.cons_append, replGo, if_pos hc, List.append_eq]
    rw [h2]
    simp [List.reverse_cons, List.append_assoc]

/-- Claim C10: when the message resolved for a key contains a
`\x7b name \x7d` placeholder, `formatMessage` replaces it by the
(stringified) value of `vars[name]` exactly when that value is truthy and
keeps the literal placeholder text otherwise (empty string, zero and
`false` are falsy); when the key is unknown, the result is
`defaultMessage || id` with no substitution applied at all. -/
theorem formatMessage_placeholder_spec :
    (∀ (messages : String → Option String) (d : MessageDescriptor)
        (vars : String → JSValue) (pre name suf : List Char),
      (∀ c ∈ pre, c ≠ '{') → name ≠ [] → (∀ c ∈ name, isWordChar c = true) →
      messages d.id = some (String.mk (pre ++ '{' :: (name ++ '}' :: suf))) →
      formatMessage messages d (some vars) =
        String.mk (pre ++
          ((if jsTruthy (vars (String.mk name))
            then (toStr (vars (String.mk name))).data
            else '{' :: name ++ ['}']) ++ replaceVars vars suf))) ∧
    (∀ (messages : String → Option String) (d : MessageDescriptor)
        (vars : String → JSValue),
      messages d.id = none →
      formatMessage messages d (some vars) = jsOrStr d.defaultMessage d.id) ∧
    jsTruthy (JSValue.str "") = false ∧ jsTruthy (JSValue.num 0) = false ∧
    jsTruthy (JSValue.bool false) = false := by
  refine ⟨?_, ?_, rfl, by decide, rfl⟩
  · intro messages d vars pre name suf hpre hname hword hmsg
    have hne : String.mk (pre ++ '{' :: (name ++ '}' :: suf)) ≠ "" := by
      intro h
      have h2 := congrArg String.data h
      simp at h2
    simp only [formatMessage, hmsg, if_neg hne]
    show String.mk (replaceVars vars (pre ++ '{' :: (name ++ '}' :: suf))) = _
    congr 1
    unfold replaceVars
    rw [replGo_none_append vars pre _ hpre]
    congr 1
    have hopen : replGo vars none ('{' :: (name ++ '}' :: suf)) =
        replGo vars (some []) (name ++ '}' :: suf) := by
      simp [replGo]
    rw [hopen, replGo_some_word vars suf name [] hword (by simpa using hname)]
    simp
  · intro messages d vars h
    unfold formatMessage
    rw [h]

/-- The English message table entry used to witness claim C10
(`form.field.placeholder`). -/
def demoMessages : String → Option String :=
  fun key => if key = "form.field.placeholder" then some "Enter {fieldName}" else none

/-- A variable record binding `fieldName` to the truthy string `email`. -/
def demoVars : String → JSValue :=
  fun key => if key = "fieldName" then JSValue.str "email" else JSValue.undef

/-- Witness for claim C10: resolving `form.field.placeholder` with
`fieldName = "email"` substitutes the placeholder. -/
theorem formatMessage_placeholder_spec_witness :
    formatMessage demoMessages ⟨"form.field.placeholder", none⟩ (some demoVars) =
      "Enter email" :=
  (formatMessage_placeholder_spec.1 demoMessages
    ⟨"form.field.placeholder", none⟩ demoVars
    "Enter ".data "fieldName".data []
    (by decide) (by decide) (by decide) (by decide)).trans (by decide)

/-- Witness for claim C1 (amended): a `true`-operator condition on a map
where the field is boolean `true` is satisfied, and an `isTrue`-operator
condition is satisfied even where the field is boolean `false`. -/
theorem evalCondition_true_false_operators_witness :
    evalCondition (fun _ => JSValue.bool true)
      ⟨"notifications", "true", JSValue.undef⟩ = true ∧
    evalCondition (fun _ => JSValue.bool false)
      ⟨"notifications", "isTrue", JSValue.undef⟩ = true :=
  ⟨(evalCondition_true_false_operators.1
      (fun _ => JSValue.bool true) "notifications" JSValue.undef).mpr rfl,
   evalCondition_true_false_operators.2.2.1
      (fun _ => JSValue.bool false) "notifications" JSValue.undef⟩

/-- Witness for claim C2: on the concrete data with the six-character
password the cross-field check passes. -/
theorem checkPasswordMatch_spec_witness :
    checkPasswordMatch mismatchData = true :=
  (checkPasswordMatch_spec mismatchData "1234").1.mpr (by decide)

/-- Witness for claim C4 (amended): a bare `z.string()` field compiles to
a required config. -/
theorem fieldConfig_required_spec_witness :
    (fieldConfig "name" (ZodType.zstring none)).isRequired = true :=
  fieldConfig_required_spec.1 "name" none

/-- Witness for claim C5: the application's `phoneNumber` rule
(`country equals us`) is satisfied on a value map where `country` is the
string `us`. -/
theorem isFieldVisible_operator_semantics_witness :
    isFieldVisible [⟨"country", "equals", JSValue.str "us"⟩]
      (fun _ => JSValue.str "us") = true :=
  (isFieldVisible_operator_semantics.2.1 _ _).mpr (by
    intro c hc
    simp only [List.mem_singleton] at hc
    subst hc
    exact (isFieldVisible_operator_semantics.2.2.1 _ _ _).mpr rfl)
